import Mathlib

/-!
Verification of the flight-instructor scheduling optimizer
(`streamlit_app.py`).

The program builds a 0/1 linear program with PuLP
(`create_optimization_model`): one binary variable per
(instructor index, student index) pair, the objective is the sum of all
variables, and four constraint families are generated:
  1. per-instructor capacity  (sum over students ≤ 1),
  2. per-student exclusivity  (sum over instructors ≤ 1),
  3. qualification compatibility (x[i,j] = 0 whenever some course c in
     [1,2,3] is not in instructor i's qualifications and c equals
     student j's course),
  4. aircraft ceiling (total sum ≤ aircraft_count).
`solve_and_display_results` solves the model with the external CBC
solver and extracts a result table, the assigned count, and the
unassigned count.

The model data and constraint generation below are translated from the
source.  The external CBC solver is not part of the repository; it is
modelled from the spec by its contract (it returns a feasible 0/1
assignment maximizing the objective) as an executable exhaustive search
over all subsets of the variable grid.
-/

/-- an instructor record, as built by the input form:
`{"id": i+1, "qualifications": [...]}`. -/
structure Instructor where
  id : Int
  qualifications : List Nat
deriving Repr, DecidableEq

/-- a student record, as built by the input form:
`{"id": i+1, "course": c}`. -/
structure Student where
  id : Int
  course : Nat
deriving Repr, DecidableEq

def defaultInstructor : Instructor := ⟨0, []⟩

def defaultStudent : Student := ⟨0, 0⟩

/-- the problem descriptor returned by `create_optimization_model`: the
generated variables, objective and constraints are all determined by the
two entity lists and the aircraft count, so the descriptor carries
exactly those.  The constraint families themselves are expressed by
`Feasible` below. -/
structure LpModel where
  instructors : List Instructor
  students : List Student
  aircraftCount : Int
deriving Repr, DecidableEq

/-- `create_optimization_model(instructors, students, aircraft_count)`.
The Python function performs no input validation and contains no failure
path (its loops run over `range(len(...))`, so no access can fail); the
`Except` result makes this explicit: it is `ok` on every input. -/
def createOptimizationModel (instructors : List Instructor)
    (students : List Student) (aircraftCount : Int) :
    Except String LpModel :=
  Except.ok ⟨instructors, students, aircraftCount⟩

def numInstructors (m : LpModel) : Nat := m.instructors.length

def numStudents (m : LpModel) : Nat := m.students.length

/-- `instructors[i]['qualifications']` (the code only reads it at
indices `i < len(instructors)`). -/
def quals (m : LpModel) (i : Nat) : List Nat :=
  (m.instructors.getD i defaultInstructor).qualifications

/-- `students[j]['course']` (the code only reads it at indices
`j < len(students)`). -/
def courseOf (m : LpModel) (j : Nat) : Nat :=
  (m.students.getD j defaultStudent).course

/-- the trigger of constraint family 3, mirroring the loop
`for course in [1,2,3]: if course not in instructors[i]['qualifications']
and course == students[j]['course']`: when it holds, the constraint
`x[i,j] == 0` is added to the model. -/
def forbidden (m : LpModel) (i j : Nat) : Bool :=
  [1, 2, 3].any fun c =>
    (! (quals m i).contains c) && (c == courseOf m j)

/-- the objective `pulp.lpSum(x[i, j] for i in instructor_ids for j in
student_ids)`. -/
def objectiveVal (m : LpModel) (x : Nat → Nat → Nat) : Nat :=
  ∑ i in Finset.range (numInstructors m),
    ∑ j in Finset.range (numStudents m), x i j

/-- the full constraint set generated by `create_optimization_model`:
the `Binary` category of each variable, constraint families 1–4. -/
def Feasible (m : LpModel) (x : Nat → Nat → Nat) : Prop :=
  (∀ i < numInstructors m, ∀ j < numStudents m, x i j ≤ 1) ∧
  (∀ i < numInstructors m,
    ∑ j in Finset.range (numStudents m), x i j ≤ 1) ∧
  (∀ j < numStudents m,
    ∑ i in Finset.range (numInstructors m), x i j ≤ 1) ∧
  (∀ i < numInstructors m, ∀ j < numStudents m,
    forbidden m i j = true → x i j = 0) ∧
  ((objectiveVal m x : Int) ≤ m.aircraftCount)

instance (m : LpModel) (x : Nat → Nat → Nat) : Decidable (Feasible m x) := by
  unfold Feasible
  infer_instance

/-- the variable grid: all (instructor index, student index) pairs, in
the nested-loop order of the source. -/
def allPairs (m : LpModel) : List (Nat × Nat) :=
  (List.range (numInstructors m)).flatMap fun i =>
    (List.range (numStudents m)).map fun j => (i, j)

/-- the 0/1 assignment determined by a set of assigned pairs. -/
def ofPairs (s : List (Nat × Nat)) : Nat → Nat → Nat :=
  fun i j => if (i, j) ∈ s then 1 else 0

def pairScore (m : LpModel) (s : List (Nat × Nat)) : Nat :=
  objectiveVal m (ofPairs s)

/-- all candidate pair sets that satisfy every generated constraint. -/
def feasibleCandidates (m : LpModel) : List (List (Nat × Nat)) :=
  (allPairs m).sublists.filter fun s => decide (Feasible m (ofPairs s))

def pickBest (m : LpModel) :
    List (List (Nat × Nat)) → List (Nat × Nat) → List (Nat × Nat)
  | [], best => best
  | c :: rest, best =>
      pickBest m rest (if pairScore m best < pairScore m c then c else best)

/-- Modelled from the spec: the call `model.solve(pulp.PULP_CBC_CMD(...))`
delegates to the external CBC mixed-integer solver, which is not part of
this repository.  Per its contract (§4.2 of the spec) it returns a
feasible 0/1 assignment whose objective value is the maximum achievable;
here it is modelled as an exhaustive search over every subset of the
variable grid, keeping a feasible subset of maximal objective (the empty
subset when none is feasible). -/
def bestPairs (m : LpModel) : List (Nat × Nat) :=
  pickBest m (feasibleCandidates m) []

/-- the solved values `pulp.value(x[i, j])` of all decision variables. -/
def solveModel (m : LpModel) : Nat → Nat → Nat :=
  ofPairs (bestPairs m)

/-- one row of the results dataframe. -/
structure ResultRow where
  instructorId : Nat
  instructorQualifications : List Nat
  studentId : Nat
  studentCourse : Nat
deriving Repr, DecidableEq

/-- the row-collection loop of `solve_and_display_results`: for each
`i < len(instructors)` and `j < len(students)` with
`pulp.value(x[i,j]) == 1`, append a row with `"Instructor ID": i + 1`,
the instructor's qualification list, `"Student ID": j + 1`, and the
student's course. -/
def resultRows (m : LpModel) (x : Nat → Nat → Nat) : List ResultRow :=
  (List.range (numInstructors m)).flatMap fun i =>
    (List.range (numStudents m)).filterMap fun j =>
      if x i j = 1 then
        some ⟨i + 1, quals m i, j + 1, courseOf m j⟩
      else none

/-- the triple returned by `solve_and_display_results`. -/
structure SolveResults where
  rows : List ResultRow
  assignedStudents : Nat
  unassignedStudents : Int
deriving Repr, DecidableEq

/-- `solve_and_display_results(model, x, instructors, students)`:
solve, collect rows (the counter `assigned_students` is incremented
exactly when a row is appended, so it equals the number of rows), and
compute `unassigned_students = total_students - assigned_students`. -/
def solveAndDisplayResults (m : LpModel) : SolveResults :=
  let rows := resultRows m (solveModel m)
  ⟨rows, rows.length, (numStudents m : Int) - rows.length⟩

def assignedCount (m : LpModel) : Nat :=
  (solveAndDisplayResults m).assignedStudents

/-- the branch of the Run Optimization block:
`if assigned_students > 0: st.success(...) else: st.error("No students
could be assigned. ...")`.  Returns `true` exactly when the block
reports the outcome with an error message. -/
def runShowsError (m : LpModel) : Bool :=
  if 0 < assignedCount m then false else true

/-- `instructor_utilization = (assigned_students / instructor_count) * 100`:
Python true division of integers, which raises `ZeroDivisionError` when
the denominator is zero and otherwise produces an exact quotient. -/
def instructorUtilization (assignedStudents instructorCount : Nat) :
    Except String Rat :=
  if instructorCount = 0 then
    Except.error "ZeroDivisionError: division by zero"
  else
    Except.ok ((assignedStudents : Rat) / (instructorCount : Rat) * 100)

/-- `aircraft_utilization = (assigned_students / aircraft_count) * 100`:
Python true division, raising `ZeroDivisionError` on a zero
denominator. -/
def aircraftUtilization (assignedStudents : Nat) (aircraftCount : Int) :
    Except String Rat :=
  if aircraftCount = 0 then
    Except.error "ZeroDivisionError: division by zero"
  else
    Except.ok ((assignedStudents : Rat) / (aircraftCount : Rat) * 100)

/-- the pairs of the variable grid at which an assignment takes the
value 1. -/
def gridOnes (m : LpModel) (x : Nat → Nat → Nat) : List (Nat × Nat) :=
  (allPairs m).filter fun p => x p.1 p.2 == 1

/-- the true maximum cardinality of the generated model. -/
def IsMaxAssignedCount (m : LpModel) (n : Nat) : Prop :=
  (∃ x, Feasible m x ∧ objectiveVal m x = n) ∧
  ∀ x, Feasible m x → objectiveVal m x ≤ n

theorem mem_allPairs (m : LpModel) (p : Nat × Nat) :
    p ∈ allPairs m ↔ p.1 < numInstructors m ∧ p.2 < numStudents m := by
  cases p with
  | mk i j =>
    simp [allPairs, List.mem_flatMap, List.mem_range]

theorem pickBest_eq_or_mem (m : LpModel) :
    ∀ (l : List (List (Nat × Nat))) (b : List (Nat × Nat)),
      pickBest m l b = b ∨ pickBest m l b ∈ l := by
  intro l
  induction l with
  | nil => intro b; exact Or.inl rfl
  | cons c rest ih =>
    intro b
    rcases ih (if pairScore m b < pairScore m c then c else b) with h | h
    · rw [pickBest, h]
      split
      · exact Or.inr (List.mem_cons_self _ _)
      · exact Or.inl rfl
    · exact Or.inr (List.mem_cons_of_mem _ (by rw [pickBest]; exact h))

theorem le_pairScore_pickBest (m : LpModel) :
    ∀ (l : List (List (Nat × Nat))) (b : List (Nat × Nat)),
      pairScore m b ≤ pairScore m (pickBest m l b) := by
  intro l
  induction l with
  | nil => intro b; exact Nat.le_refl _
  | cons c rest ih =>
    intro b
    rw [pickBest]
    refine Nat.le_trans ?_ (ih _)
    split
    · exact Nat.le_of_lt (by assumption)
    · exact Nat.le_refl _

theorem pairScore_le_pickBest (m : LpModel) :
    ∀ (l : List (List (Nat × Nat))) (b c : List (Nat × Nat)), c ∈ l →
      pairScore m c ≤ pairScore m (pickBest m l b) := by
  intro l
  induction l with
  | nil => intro b c hc; exact absurd hc (List.not_mem_nil c)
  | cons a rest ih =>
    intro b c hc
    rw [pickBest]
    rcases List.mem_cons.mp hc with rfl | hc
    · refine Nat.le_trans ?_ (le_pairScore_pickBest m rest _)
      split
      · exact Nat.le_refl _
      · exact Nat.le_of_not_lt (by assumption)
    · exact ih _ c hc

theorem ofPairs_nil : ofPairs [] = fun _ _ => 0 := by
  funext i j
  simp [ofPairs]

theorem feasible_nil (m : LpModel) (hcap : 0 ≤ m.aircraftCount) :
    Feasible m (ofPairs []) := by
  rw [ofPairs_nil]
  refine ⟨?_, ?_, ?_, ?_, ?_⟩
  · intro i _ j _; exact Nat.zero_le 1
  · intro i _; simp
  · intro j _; simp
  · intro i _ j _ _; rfl
  · simpa [objectiveVal] using hcap

theorem mem_feasibleCandidates (m : LpModel) (s : List (Nat × Nat)) :
    s ∈ feasibleCandidates m ↔
      s.Sublist (allPairs m) ∧ Feasible m (ofPairs s) := by
  simp [feasibleCandidates, List.mem_filter, List.mem_sublists]

theorem solveModel_feasible (m : LpModel) (hcap : 0 ≤ m.aircraftCount) :
    Feasible m (solveModel m) := by
  show Feasible m (ofPairs (bestPairs m))
  rcases pickBest_eq_or_mem m (feasibleCandidates m) [] with h | h
  · rw [bestPairs, h]; exact feasible_nil m hcap
  · exact ((mem_feasibleCandidates m _).mp (by rw [bestPairs]; exact h)).2

theorem objectiveVal_congr (m : LpModel) (x y : Nat → Nat → Nat)
    (h : ∀ i < numInstructors m, ∀ j < numStudents m, x i j = y i j) :
    objectiveVal m x = objectiveVal m y := by
  unfold objectiveVal
  refine Finset.sum_congr rfl fun i hi => Finset.sum_congr rfl fun j hj => ?_
  exact h i (Finset.mem_range.mp hi) j (Finset.mem_range.mp hj)

theorem feasible_congr (m : LpModel) (x y : Nat → Nat → Nat)
    (h : ∀ i < numInstructors m, ∀ j < numStudents m, x i j = y i j)
    (hx : Feasible m x) : Feasible m y := by
  obtain ⟨hbin, h1, h2, h3, h4⟩ := hx
  refine ⟨?_, ?_, ?_, ?_, ?_⟩
  · intro i hi j hj; rw [← h i hi j hj]; exact hbin i hi j hj
  · intro i hi
    calc ∑ j in Finset.range (numStudents m), y i j
        = ∑ j in Finset.range (numStudents m), x i j := by
          refine Finset.sum_congr rfl fun j hj => ?_
          exact (h i hi j (Finset.mem_range.mp hj)).symm
      _ ≤ 1 := h1 i hi
  · intro j hj
    calc ∑ i in Finset.range (numInstructors m), y i j
        = ∑ i in Finset.range (numInstructors m), x i j := by
          refine Finset.sum_congr rfl fun i hi => ?_
          exact (h i (Finset.mem_range.mp hi) j hj).symm
      _ ≤ 1 := h2 j hj
  · intro i hi j hj hf; rw [← h i hi j hj]; exact h3 i hi j hj hf
  · rw [← objectiveVal_congr m x y h]; exact h4

theorem ofPairs_gridOnes (m : LpModel) (x : Nat → Nat → Nat)
    (hbin : ∀ i < numInstructors m, ∀ j < numStudents m, x i j ≤ 1) :
    ∀ i < numInstructors m, ∀ j < numStudents m,
      ofPairs (gridOnes m x) i j = x i j := by
  intro i hi j hj
  have hmem : (i, j) ∈ gridOnes m x ↔ x i j = 1 := by
    simp [gridOnes, List.mem_filter, mem_allPairs, hi, hj]
  by_cases hx : x i j = 1
  · rw [ofPairs, if_pos (hmem.mpr hx), hx]
  · have hx0 : x i j = 0 :=
      Nat.le_zero.mp (Nat.lt_succ_iff.mp
        (Nat.lt_of_le_of_ne (hbin i hi j hj) hx))
    rw [ofPairs, if_neg (fun hc => hx (hmem.mp hc)), hx0]

theorem solveModel_optimal (m : LpModel) (x : Nat → Nat → Nat)
    (hx : Feasible m x) :
    objectiveVal m x ≤ objectiveVal m (solveModel m) := by
  have hagree := ofPairs_gridOnes m x hx.1
  have hfeas : Feasible m (ofPairs (gridOnes m x)) :=
    feasible_congr m x (ofPairs (gridOnes m x))
      (fun i hi j hj => (hagree i hi j hj).symm) hx
  have hsub : (gridOnes m x).Sublist (allPairs m) := List.filter_sublist _
  have hmem : gridOnes m x ∈ feasibleCandidates m :=
    (mem_feasibleCandidates m _).mpr ⟨hsub, hfeas⟩
  have hle : pairScore m (gridOnes m x) ≤ pairScore m (bestPairs m) :=
    pairScore_le_pickBest m (feasibleCandidates m) [] _ hmem
  calc objectiveVal m x
      = objectiveVal m (ofPairs (gridOnes m x)) :=
        objectiveVal_congr m x _ (fun i hi j hj => (hagree i hi j hj).symm)
    _ ≤ objectiveVal m (ofPairs (bestPairs m)) := hle
    _ = objectiveVal m (solveModel m) := rfl

theorem length_filterMap_ite {α : Type} (p : Nat → Prop) [DecidablePred p]
    (f : Nat → α) :
    ∀ l : List Nat,
      (l.filterMap fun j => if p j then some (f j) else none).length
        = (l.map fun j => if p j then 1 else 0).sum := by
  intro l
  induction l with
  | nil => rfl
  | cons a t ih =>
    by_cases hp : p a
    · simp [List.filterMap_cons, hp, ih, Nat.add_comm]
    · simp [List.filterMap_cons, hp, ih]

theorem sum_map_list_range (f : Nat → Nat) :
    ∀ n : Nat, ((List.range n).map f).sum = ∑ j in Finset.range n, f j := by
  intro n
  induction n with
  | zero => rfl
  | succ k ih =>
    rw [List.range_succ, List.map_append, List.sum_append,
      Finset.sum_range_succ, ih]
    simp

theorem length_resultRows (m : LpModel) (x : Nat → Nat → Nat) :
    (resultRows m x).length
      = ∑ i in Finset.range (numInstructors m),
          ∑ j in Finset.range (numStudents m),
            (if x i j = 1 then 1 else 0) := by
  rw [resultRows, List.length_flatMap, ← sum_map_list_range]
  congr 1
  refine List.map_congr_left fun i _ => ?_
  rw [Function.comp_apply, length_filterMap_ite, sum_map_list_range]

theorem length_resultRows_eq_objective (m : LpModel) (x : Nat → Nat → Nat)
    (hbin : ∀ i < numInstructors m, ∀ j < numStudents m, x i j ≤ 1) :
    (resultRows m x).length = objectiveVal m x := by
  rw [length_resultRows, objectiveVal]
  refine Finset.sum_congr rfl fun i hi => Finset.sum_congr rfl fun j hj => ?_
  have hb := hbin i (Finset.mem_range.mp hi) j (Finset.mem_range.mp hj)
  by_cases hx : x i j = 1
  · rw [if_pos hx, hx]
  · rw [if_neg hx,
      Nat.le_zero.mp (Nat.lt_succ_iff.mp (Nat.lt_of_le_of_ne hb hx))]

theorem assignedCount_eq_objective (m : LpModel)
    (hcap : 0 ≤ m.aircraftCount) :
    assignedCount m = objectiveVal m (solveModel m) :=
  length_resultRows_eq_objective m (solveModel m)
    (solveModel_feasible m hcap).1

theorem objective_le_numInstructors (m : LpModel) (x : Nat → Nat → Nat)
    (hx : Feasible m x) : objectiveVal m x ≤ numInstructors m := by
  calc objectiveVal m x
      ≤ ∑ _i in Finset.range (numInstructors m), 1 :=
        Finset.sum_le_sum fun i hi => hx.2.1 i (Finset.mem_range.mp hi)
    _ = numInstructors m := by simp

theorem objective_le_numStudents (m : LpModel) (x : Nat → Nat → Nat)
    (hx : Feasible m x) : objectiveVal m x ≤ numStudents m := by
  rw [objectiveVal, Finset.sum_comm]
  calc ∑ j in Finset.range (numStudents m),
        ∑ i in Finset.range (numInstructors m), x i j
      ≤ ∑ _j in Finset.range (numStudents m), 1 :=
        Finset.sum_le_sum fun j hj => hx.2.2.1 j (Finset.mem_range.mp hj)
    _ = numStudents m := by simp

theorem eq_nil_of_grid_zero (m : LpModel) (s : List (Nat × Nat))
    (hsub : s.Sublist (allPairs m))
    (hzero : ∀ i < numInstructors m, ∀ j < numStudents m,
      ofPairs s i j = 0) : s = [] := by
  cases s with
  | nil => rfl
  | cons p t =>
    exfalso
    have hp : p ∈ allPairs m := hsub.subset (List.mem_cons_self p t)
    have hgrid := (mem_allPairs m p).mp hp
    have h1 : ofPairs (p :: t) p.1 p.2 = 1 := by
      rw [ofPairs, if_pos]
      exact List.mem_cons_self p t
    rw [hzero p.1 hgrid.1 p.2 hgrid.2] at h1
    exact Nat.zero_ne_one h1

theorem grid_zero_of_objective_zero (m : LpModel) (x : Nat → Nat → Nat)
    (h : objectiveVal m x = 0) :
    ∀ i < numInstructors m, ∀ j < numStudents m, x i j = 0 := by
  intro i hi j hj
  have hrow := (Finset.sum_eq_zero_iff.mp h) i (Finset.mem_range.mpr hi)
  exact (Finset.sum_eq_zero_iff.mp hrow) j (Finset.mem_range.mpr hj)

theorem bestPairs_eq_nil_of_cap_zero (m : LpModel)
    (hcap : m.aircraftCount = 0) : bestPairs m = [] := by
  rcases pickBest_eq_or_mem m (feasibleCandidates m) [] with h | h
  · exact h
  · obtain ⟨hsub, hfeas⟩ := (mem_feasibleCandidates m _).mp h
    refine eq_nil_of_grid_zero m _ hsub ?_
    refine grid_zero_of_objective_zero m _ ?_
    have hle := hfeas.2.2.2.2
    rw [hcap] at hle
    exact_mod_cast le_antisymm hle (by positivity)

theorem bestPairs_eq_nil_of_all_forbidden (m : LpModel)
    (hforb : ∀ i < numInstructors m, ∀ j < numStudents m,
      forbidden m i j = true) : bestPairs m = [] := by
  rcases pickBest_eq_or_mem m (feasibleCandidates m) [] with h | h
  · exact h
  · obtain ⟨hsub, hfeas⟩ := (mem_feasibleCandidates m _).mp h
    refine eq_nil_of_grid_zero m _ hsub fun i hi j hj => ?_
    exact hfeas.2.2.2.1 i hi j hj (hforb i hi j hj)

theorem resultRows_zero (m : LpModel) : resultRows m (fun _ _ => 0) = [] := by
  simp [resultRows]

theorem assignedCount_of_bestPairs_nil (m : LpModel)
    (h : bestPairs m = []) : assignedCount m = 0 := by
  have hx : solveModel m = fun _ _ => 0 := by
    rw [solveModel, h, ofPairs_nil]
  show (resultRows m (solveModel m)).length = 0
  rw [hx, resultRows_zero]
  rfl

theorem qualified_of_not_forbidden (m : LpModel) (i j : Nat)
    (hj : j < numStudents m)
    (hvalid : ∀ s ∈ m.students, s.course = 1 ∨ s.course = 2 ∨ s.course = 3)
    (hf : forbidden m i j = false) : courseOf m j ∈ quals m i := by
  have hcourse : courseOf m j = 1 ∨ courseOf m j = 2 ∨ courseOf m j = 3 := by
    have hmem : m.students.getD j defaultStudent ∈ m.students := by
      rw [List.getD_eq_getElem m.students defaultStudent hj]
      exact List.getElem_mem hj
    exact hvalid _ hmem
  by_contra hno
  have : forbidden m i j = true := by
    rw [forbidden, List.any_eq_true]
    refine ⟨courseOf m j, ?_, ?_⟩
    · rcases hcourse with h | h | h <;> simp [h]
    · simp [hno]
  rw [this] at hf
  exact absurd hf (by simp)

/-- claim C1: for every valid input (non-empty instructor list, non-empty
student list, aircraftCapacity ≥ 1, each student's course in {1,2,3}),
the assignment produced by solving the model satisfies all five
invariants: (a) each instructor gets at most one student, (b) each
student gets at most one instructor, (c) a pair is assigned only if the
student's course is in the instructor's qualification set, (d) the total
assigned count is at most the aircraft capacity, and (e) every
assignment variable is 0 or 1. -/
theorem claim1_solution_invariants (m : LpModel)
    (hins : m.instructors ≠ []) (hsts : m.students ≠ [])
    (hcap : 1 ≤ m.aircraftCount)
    (hvalid : ∀ s ∈ m.students, s.course = 1 ∨ s.course = 2 ∨ s.course = 3) :
    (∀ i < numInstructors m,
      ∑ j in Finset.range (numStudents m), solveModel m i j ≤ 1) ∧
    (∀ j < numStudents m,
      ∑ i in Finset.range (numInstructors m), solveModel m i j ≤ 1) ∧
    (∀ i < numInstructors m, ∀ j < numStudents m,
      solveModel m i j = 1 → courseOf m j ∈ quals m i) ∧
    ((assignedCount m : Int) ≤ m.aircraftCount) ∧
    (∀ i j, solveModel m i j = 0 ∨ solveModel m i j = 1) := by
  have hcap0 : 0 ≤ m.aircraftCount := le_trans (by norm_num) hcap
  have hfeas := solveModel_feasible m hcap0
  refine ⟨hfeas.2.1, hfeas.2.2.1, ?_, ?_, ?_⟩
  · intro i hi j hj hx1
    refine qualified_of_not_forbidden m i j hj hvalid ?_
    cases hf : forbidden m i j
    · rfl
    · rw [hfeas.2.2.2.1 i hi j hj hf] at hx1
      exact absurd hx1 (by norm_num)
  · rw [assignedCount_eq_objective m hcap0]
    exact hfeas.2.2.2.2
  · intro i j
    rw [solveModel, ofPairs]
    by_cases h : (i, j) ∈ bestPairs m
    · rw [if_pos h]; exact Or.inr rfl
    · rw [if_neg h]; exact Or.inl rfl

theorem claim1_witness :
    (([⟨1, [1]⟩] : List Instructor) ≠ [] ∧
      ([⟨1, 1⟩] : List Student) ≠ [] ∧ (1 : Int) ≤ 1 ∧
      (∀ s ∈ ([⟨1, 1⟩] : List Student),
        s.course = 1 ∨ s.course = 2 ∨ s.course = 3)) ∧
    ((∀ i < numInstructors ⟨[⟨1, [1]⟩], [⟨1, 1⟩], 1⟩,
      ∑ j in Finset.range (numStudents ⟨[⟨1, [1]⟩], [⟨1, 1⟩], 1⟩),
        solveModel ⟨[⟨1, [1]⟩], [⟨1, 1⟩], 1⟩ i j ≤ 1) ∧
    (∀ j < numStudents ⟨[⟨1, [1]⟩], [⟨1, 1⟩], 1⟩,
      ∑ i in Finset.range (numInstructors ⟨[⟨1, [1]⟩], [⟨1, 1⟩], 1⟩),
        solveModel ⟨[⟨1, [1]⟩], [⟨1, 1⟩], 1⟩ i j ≤ 1) ∧
    (∀ i < numInstructors ⟨[⟨1, [1]⟩], [⟨1, 1⟩], 1⟩,
      ∀ j < numStudents ⟨[⟨1, [1]⟩], [⟨1, 1⟩], 1⟩,
        solveModel ⟨[⟨1, [1]⟩], [⟨1, 1⟩], 1⟩ i j = 1 →
          courseOf ⟨[⟨1, [1]⟩], [⟨1, 1⟩], 1⟩ j ∈
            quals ⟨[⟨1, [1]⟩], [⟨1, 1⟩], 1⟩ i) ∧
    ((assignedCount ⟨[⟨1, [1]⟩], [⟨1, 1⟩], 1⟩ : Int) ≤ 1) ∧
    (∀ i j, solveModel ⟨[⟨1, [1]⟩], [⟨1, 1⟩], 1⟩ i j = 0 ∨
      solveModel ⟨[⟨1, [1]⟩], [⟨1, 1⟩], 1⟩ i j = 1)) :=
  ⟨⟨by decide, by decide, by decide, by decide⟩,
    claim1_solution_invariants ⟨[⟨1, [1]⟩], [⟨1, 1⟩], 1⟩
      (by decide) (by decide) (by decide) (by decide)⟩

/-- claim C2: the assigned count returned by
`solve_and_display_results` equals the true maximum cardinality
achievable under the four constraint families; the solver never returns
a feasible-but-suboptimal assignment as final. -/
theorem claim2_optimality (m : LpModel) (hcap : 0 ≤ m.aircraftCount) :
    IsMaxAssignedCount m (assignedCount m) := by
  have hc := assignedCount_eq_objective m hcap
  exact ⟨⟨solveModel m, solveModel_feasible m hcap, hc.symm⟩,
    fun x hx => hc ▸ solveModel_optimal m x hx⟩

theorem claim2_witness :
    (0 : Int) ≤ (LpModel.mk [⟨1, [1]⟩] [⟨1, 1⟩] 1).aircraftCount ∧
    IsMaxAssignedCount ⟨[⟨1, [1]⟩], [⟨1, 1⟩], 1⟩
      (assignedCount ⟨[⟨1, [1]⟩], [⟨1, 1⟩], 1⟩) :=
  ⟨by decide, claim2_optimality ⟨[⟨1, [1]⟩], [⟨1, 1⟩], 1⟩ (by decide)⟩

/-- claim C4: the assigned count produced by a solve never exceeds
min(number of instructors, number of students, aircraftCapacity). -/
theorem claim4_count_bound (m : LpModel) (hcap : 0 ≤ m.aircraftCount) :
    (assignedCount m : Int) ≤
      min (numInstructors m : Int)
        (min (numStudents m : Int) m.aircraftCount) := by
  have hfeas := solveModel_feasible m hcap
  rw [assignedCount_eq_objective m hcap]
  refine le_min ?_ (le_min ?_ ?_)
  · exact_mod_cast objective_le_numInstructors m _ hfeas
  · exact_mod_cast objective_le_numStudents m _ hfeas
  · exact hfeas.2.2.2.2

theorem claim4_witness :
    (0 : Int) ≤ (LpModel.mk [⟨1, [1]⟩] [⟨1, 1⟩, ⟨2, 1⟩] 5).aircraftCount ∧
    (assignedCount ⟨[⟨1, [1]⟩], [⟨1, 1⟩, ⟨2, 1⟩], 5⟩ : Int) ≤
      min (numInstructors ⟨[⟨1, [1]⟩], [⟨1, 1⟩, ⟨2, 1⟩], 5⟩ : Int)
        (min (numStudents ⟨[⟨1, [1]⟩], [⟨1, 1⟩, ⟨2, 1⟩], 5⟩ : Int)
          (LpModel.mk [⟨1, [1]⟩] [⟨1, 1⟩, ⟨2, 1⟩] 5).aircraftCount) :=
  ⟨by decide, claim4_count_bound ⟨[⟨1, [1]⟩], [⟨1, 1⟩, ⟨2, 1⟩], 5⟩ (by decide)⟩

theorem assignedCount_le_numStudents (m : LpModel) :
    assignedCount m ≤ numStudents m := by
  rcases pickBest_eq_or_mem m (feasibleCandidates m) [] with h | h
  · rw [assignedCount_of_bestPairs_nil m h]
    exact Nat.zero_le _
  · have hfeas : Feasible m (solveModel m) :=
      ((mem_feasibleCandidates m _).mp h).2
    have := length_resultRows_eq_objective m (solveModel m) hfeas.1
    show (resultRows m (solveModel m)).length ≤ numStudents m
    rw [this]
    exact objective_le_numStudents m _ hfeas

/-- claim C8: the unassigned-student count returned by results
extraction equals the total number of students minus the assigned
count (and the assigned count never exceeds the student total, so the
difference is a genuine count). -/
theorem claim8_unassigned_count (m : LpModel) :
    (solveAndDisplayResults m).unassignedStudents
      = (m.students.length : Int)
        - (solveAndDisplayResults m).assignedStudents ∧
    (solveAndDisplayResults m).assignedStudents ≤ m.students.length :=
  ⟨rfl, assignedCount_le_numStudents m⟩

/-- claim C7: the utilization computations raise `ZeroDivisionError`
when the instructor count is zero or the aircraft capacity is zero,
rather than producing a numeric percentage. -/
theorem claim7_divzero (a : Nat) :
    instructorUtilization a 0
        = Except.error "ZeroDivisionError: division by zero" ∧
      aircraftUtilization a 0
        = Except.error "ZeroDivisionError: division by zero" :=
  ⟨rfl, rfl⟩

/-- claim C3 counterexample: `create_optimization_model` does NOT fail
on invalid inputs.  At a student whose course 5 is outside {1,2,3}, at a
negative aircraft capacity, and at empty entity lists, it succeeds and
returns the built model, contradicting the claim that model building
fails with InvalidInputError in those cases. -/
theorem claim3_counterexample :
    createOptimizationModel [⟨1, [1]⟩] [⟨1, 5⟩] 3
        = Except.ok ⟨[⟨1, [1]⟩], [⟨1, 5⟩], 3⟩ ∧
      createOptimizationModel [⟨1, [1]⟩] [⟨1, 1⟩] (-2)
        = Except.ok ⟨[⟨1, [1]⟩], [⟨1, 1⟩], -2⟩ ∧
      createOptimizationModel [] [] 3 = Except.ok ⟨[], [], 3⟩ :=
  ⟨rfl, rfl, rfl⟩

/-- claim C3 amended: model building performs no input validation and
never fails: for every input, including out-of-range courses, negative
capacity, and empty lists, `create_optimization_model` successfully
returns the problem descriptor. -/
theorem claim3_amended (ins : List Instructor) (sts : List Student)
    (cap : Int) :
    createOptimizationModel ins sts cap = Except.ok ⟨ins, sts, cap⟩ := rfl

/-- claim C6 counterexample: at aircraft capacity 0 the solve succeeds
with assigned count 0, but the Run Optimization block reports that
situation with an error message (`st.error`), contradicting the claim
that it is not reported as an error. -/
theorem claim6_counterexample :
    (LpModel.mk [⟨1, [1]⟩] [⟨1, 1⟩] 0).aircraftCount = 0 ∧
      assignedCount ⟨[⟨1, [1]⟩], [⟨1, 1⟩], 0⟩ = 0 ∧
      runShowsError ⟨[⟨1, [1]⟩], [⟨1, 1⟩], 0⟩ = true := by
  refine ⟨rfl, ?_, ?_⟩ <;> decide

/-- claim C6 amended: when aircraftCapacity is 0, or no
(instructor, student) pair is qualification-compatible, the solve
succeeds and returns the all-zero assignment with assigned count 0 as a
valid optimal solution; the Run Optimization block then reports this
situation with an error message. -/
theorem claim6_amended (m : LpModel)
    (h : m.aircraftCount = 0 ∨
      ∀ i < numInstructors m, ∀ j < numStudents m,
        forbidden m i j = true) :
    assignedCount m = 0 ∧ (∀ i j, solveModel m i j = 0) ∧
      runShowsError m = true := by
  have hnil : bestPairs m = [] := by
    rcases h with h | h
    · exact bestPairs_eq_nil_of_cap_zero m h
    · exact bestPairs_eq_nil_of_all_forbidden m h
  have hcount := assignedCount_of_bestPairs_nil m hnil
  refine ⟨hcount, ?_, ?_⟩
  · intro i j
    rw [solveModel, hnil, ofPairs_nil]
  · rw [runShowsError, hcount]
    rfl

theorem claim6_witness :
    ((LpModel.mk [⟨1, [1, 2]⟩] [⟨1, 1⟩] 0).aircraftCount = 0 ∨
      ∀ i < numInstructors ⟨[⟨1, [1, 2]⟩], [⟨1, 1⟩], 0⟩,
        ∀ j < numStudents ⟨[⟨1, [1, 2]⟩], [⟨1, 1⟩], 0⟩,
          forbidden ⟨[⟨1, [1, 2]⟩], [⟨1, 1⟩], 0⟩ i j = true) ∧
    (assignedCount ⟨[⟨1, [1, 2]⟩], [⟨1, 1⟩], 0⟩ = 0 ∧
      (∀ i j, solveModel ⟨[⟨1, [1, 2]⟩], [⟨1, 1⟩], 0⟩ i j = 0) ∧
      runShowsError ⟨[⟨1, [1, 2]⟩], [⟨1, 1⟩], 0⟩ = true) :=
  ⟨Or.inl (by decide),
    claim6_amended ⟨[⟨1, [1, 2]⟩], [⟨1, 1⟩], 0⟩ (Or.inl (by decide))⟩

theorem objectiveVal_eq_of_lengths (m₁ m₂ : LpModel) (x : Nat → Nat → Nat)
    (hI : numInstructors m₁ = numInstructors m₂)
    (hJ : numStudents m₁ = numStudents m₂) :
    objectiveVal m₂ x = objectiveVal m₁ x := by
  unfold objectiveVal
  rw [hI, hJ]

theorem feasible_transfer (m₁ m₂ : LpModel) (x : Nat → Nat → Nat)
    (hI : numInstructors m₁ = numInstructors m₂)
    (hJ : numStudents m₁ = numStudents m₂)
    (hcap : m₁.aircraftCount ≤ m₂.aircraftCount)
    (hforb : ∀ i < numInstructors m₂, ∀ j < numStudents m₂,
      forbidden m₂ i j = true → forbidden m₁ i j = true)
    (hx : Feasible m₁ x) : Feasible m₂ x := by
  obtain ⟨hbin, h1, h2, h3, h4⟩ := hx
  refine ⟨?_, ?_, ?_, ?_, ?_⟩
  · intro i hi j hj
    exact hbin i (hI ▸ hi) j (hJ ▸ hj)
  · intro i hi
    rw [← hJ]
    exact h1 i (hI ▸ hi)
  · intro j hj
    rw [← hI]
    exact h2 j (hJ ▸ hj)
  · intro i hi j hj hf
    exact h3 i (hI ▸ hi) j (hJ ▸ hj) (hforb i hi j hj hf)
  · rw [objectiveVal_eq_of_lengths m₁ m₂ x hI hJ]
    exact le_trans h4 hcap

theorem assignedCount_mono_general (m₁ m₂ : LpModel)
    (h₁ : 0 ≤ m₁.aircraftCount)
    (hI : numInstructors m₁ = numInstructors m₂)
    (hJ : numStudents m₁ = numStudents m₂)
    (hcap : m₁.aircraftCount ≤ m₂.aircraftCount)
    (hforb : ∀ i < numInstructors m₂, ∀ j < numStudents m₂,
      forbidden m₂ i j = true → forbidden m₁ i j = true) :
    assignedCount m₁ ≤ assignedCount m₂ := by
  have h₂ : 0 ≤ m₂.aircraftCount := le_trans h₁ hcap
  have hfeas₂ : Feasible m₂ (solveModel m₁) :=
    feasible_transfer m₁ m₂ _ hI hJ hcap hforb (solveModel_feasible m₁ h₁)
  rw [assignedCount_eq_objective m₁ h₁, assignedCount_eq_objective m₂ h₂]
  calc objectiveVal m₁ (solveModel m₁)
      = objectiveVal m₂ (solveModel m₁) :=
        (objectiveVal_eq_of_lengths m₁ m₂ _ hI hJ).symm
    _ ≤ objectiveVal m₂ (solveModel m₂) :=
        solveModel_optimal m₂ _ hfeas₂

theorem getD_set_quals_subset (ins : List Instructor) (a' : Instructor)
    (k i : Nat)
    (ha : a'.qualifications ⊆
      (ins.getD k defaultInstructor).qualifications) :
    ((ins.set k a').getD i defaultInstructor).qualifications ⊆
      (ins.getD i defaultInstructor).qualifications := by
  rw [List.getD_eq_getElem?_getD (ins.set k a'), List.getElem?_set]
  by_cases hk : k = i
  · subst hk
    by_cases hlt : k < ins.length
    · rw [if_pos rfl, if_pos hlt]
      simpa using ha
    · rw [if_pos rfl, if_neg hlt]
      intro a h
      exact absurd h (by simp [defaultInstructor])
  · rw [if_neg hk]
    intro a h
    rwa [List.getD_eq_getElem?_getD]

theorem quals_set_erase_subset (ins : List Instructor) (sts : List Student)
    (cap : Int) (k : Nat) (c : Nat) (i : Nat) :
    quals ⟨ins.set k ⟨(ins.getD k defaultInstructor).id,
      ((ins.getD k defaultInstructor).qualifications).erase c⟩,
        sts, cap⟩ i ⊆ quals ⟨ins, sts, cap⟩ i := by
  unfold quals
  exact getD_set_quals_subset ins _ k i (List.erase_subset c _)

theorem forbidden_mono (m m' : LpModel) (i j : Nat)
    (hq : quals m' i ⊆ quals m i) (hc : courseOf m' j = courseOf m j)
    (hf : forbidden m i j = true) : forbidden m' i j = true := by
  simp only [forbidden, List.any_eq_true, Bool.and_eq_true,
    Bool.not_eq_true', beq_iff_eq] at hf ⊢
  obtain ⟨c0, hmem, hcont, hceq⟩ := hf
  refine ⟨c0, hmem, ?_, by rw [hc, hceq]⟩
  cases hc2 : (quals m' i).contains c0
  · rfl
  · exfalso
    have hmem' : c0 ∈ quals m' i := by simpa using hc2
    have hmem2 : (quals m i).contains c0 = true := by simpa using hq hmem'
    rw [hmem2] at hcont
    exact absurd hcont (by simp)

/-- claim C5: monotonicity of the optimal assigned count: increasing
aircraftCapacity (instructors and students fixed) never decreases the
assigned count; removing one course from one instructor's qualification
set (students and capacity fixed) never increases the assigned
count. -/
theorem claim5_monotonicity :
    (∀ (ins : List Instructor) (sts : List Student) (c1 c2 : Int),
      0 ≤ c1 → c1 ≤ c2 →
        assignedCount ⟨ins, sts, c1⟩ ≤ assignedCount ⟨ins, sts, c2⟩) ∧
    (∀ (ins : List Instructor) (sts : List Student) (cap : Int)
        (k c : Nat), 0 ≤ cap →
        assignedCount ⟨ins.set k ⟨(ins.getD k defaultInstructor).id,
          ((ins.getD k defaultInstructor).qualifications).erase c⟩,
            sts, cap⟩ ≤ assignedCount ⟨ins, sts, cap⟩) := by
  constructor
  · intro ins sts c1 c2 h0 hcc
    exact assignedCount_mono_general ⟨ins, sts, c1⟩ ⟨ins, sts, c2⟩ h0
      rfl rfl hcc (fun i _ j _ h => h)
  · intro ins sts cap k c h0
    refine assignedCount_mono_general
      ⟨ins.set k ⟨(ins.getD k defaultInstructor).id,
        ((ins.getD k defaultInstructor).qualifications).erase c⟩, sts, cap⟩
      ⟨ins, sts, cap⟩ h0 ?_ rfl le_rfl ?_
    · exact List.length_set ins k _
    · intro i _ j _ hf
      exact forbidden_mono ⟨ins, sts, cap⟩ _ i j
        (quals_set_erase_subset ins sts cap k c i) rfl hf

theorem claim5_witness :
    ((0 : Int) ≤ 0 ∧ (0 : Int) ≤ 1 ∧ (0 : Int) ≤ 1) ∧
    assignedCount ⟨[⟨1, [1]⟩], [⟨1, 1⟩], 0⟩ ≤
      assignedCount ⟨[⟨1, [1]⟩], [⟨1, 1⟩], 1⟩ ∧
    assignedCount ⟨[⟨1, [1]⟩].set 0
        ⟨(([⟨1, [1]⟩] : List Instructor).getD 0 defaultInstructor).id,
          ((([⟨1, [1]⟩] : List Instructor).getD 0
            defaultInstructor).qualifications).erase 1⟩,
        [⟨1, 1⟩], 1⟩ ≤ assignedCount ⟨[⟨1, [1]⟩], [⟨1, 1⟩], 1⟩ :=
  ⟨⟨by decide, by decide, by decide⟩,
    claim5_monotonicity.1 [⟨1, [1]⟩] [⟨1, 1⟩] 0 1 (by decide) (by decide),
    claim5_monotonicity.2 [⟨1, [1]⟩] [⟨1, 1⟩] 1 0 1 (by decide)⟩

/-- claim C9: determinism of cardinality: any two optimal feasible
assignments for the same instructor list, student list and
aircraftCapacity have the same objective value and produce the same
assigned count, so repeated solves of the same input yield the same
assignedCount regardless of how the solver breaks ties. -/
theorem claim9_unique_cardinality (m : LpModel) (x1 x2 : Nat → Nat → Nat)
    (h1 : Feasible m x1)
    (hopt1 : ∀ y, Feasible m y → objectiveVal m y ≤ objectiveVal m x1)
    (h2 : Feasible m x2)
    (hopt2 : ∀ y, Feasible m y → objectiveVal m y ≤ objectiveVal m x2) :
    objectiveVal m x1 = objectiveVal m x2 ∧
      (resultRows m x1).length = (resultRows m x2).length := by
  have he : objectiveVal m x1 = objectiveVal m x2 :=
    le_antisymm (hopt2 x1 h1) (hopt1 x2 h2)
  refine ⟨he, ?_⟩
  rw [length_resultRows_eq_objective m x1 h1.1,
    length_resultRows_eq_objective m x2 h2.1, he]

theorem claim9_witness :
    (Feasible ⟨[⟨1, [1]⟩], [⟨1, 1⟩], 1⟩
        (solveModel ⟨[⟨1, [1]⟩], [⟨1, 1⟩], 1⟩) ∧
      (∀ y, Feasible ⟨[⟨1, [1]⟩], [⟨1, 1⟩], 1⟩ y →
        objectiveVal ⟨[⟨1, [1]⟩], [⟨1, 1⟩], 1⟩ y ≤
          objectiveVal ⟨[⟨1, [1]⟩], [⟨1, 1⟩], 1⟩
            (solveModel ⟨[⟨1, [1]⟩], [⟨1, 1⟩], 1⟩))) ∧
    (objectiveVal ⟨[⟨1, [1]⟩], [⟨1, 1⟩], 1⟩
          (solveModel ⟨[⟨1, [1]⟩], [⟨1, 1⟩], 1⟩)
        = objectiveVal ⟨[⟨1, [1]⟩], [⟨1, 1⟩], 1⟩
            (solveModel ⟨[⟨1, [1]⟩], [⟨1, 1⟩], 1⟩) ∧
      (resultRows ⟨[⟨1, [1]⟩], [⟨1, 1⟩], 1⟩
          (solveModel ⟨[⟨1, [1]⟩], [⟨1, 1⟩], 1⟩)).length
        = (resultRows ⟨[⟨1, [1]⟩], [⟨1, 1⟩], 1⟩
            (solveModel ⟨[⟨1, [1]⟩], [⟨1, 1⟩], 1⟩)).length) :=
  ⟨⟨by decide, fun y hy => solveModel_optimal _ y hy⟩,
    claim9_unique_cardinality ⟨[⟨1, [1]⟩], [⟨1, 1⟩], 1⟩ _ _
      (by decide) (fun y hy => solveModel_optimal _ y hy)
      (by decide) (fun y hy => solveModel_optimal _ y hy)⟩

theorem pickBest_congr (m' m : LpModel)
    (hs : ∀ s, pairScore m' s = pairScore m s) :
    ∀ (l : List (List (Nat × Nat))) (b : List (Nat × Nat)),
      pickBest m' l b = pickBest m l b := by
  intro l
  induction l with
  | nil => intro b; rfl
  | cons c rest ih =>
    intro b
    rw [pickBest, pickBest, hs, hs, ih]

theorem results_congr (m' m : LpModel)
    (hI : numInstructors m' = numInstructors m)
    (hJ : numStudents m' = numStudents m)
    (hq : ∀ i, quals m' i = quals m i)
    (hc : ∀ j, courseOf m' j = courseOf m j)
    (hcap : m'.aircraftCount = m.aircraftCount) :
    solveAndDisplayResults m' = solveAndDisplayResults m := by
  have hforb : ∀ i j, forbidden m' i j = forbidden m i j := by
    intro i j
    unfold forbidden
    rw [hq, hc]
  have hobj : ∀ x, objectiveVal m' x = objectiveVal m x := by
    intro x
    unfold objectiveVal
    rw [hI, hJ]
  have hfeas : ∀ x, Feasible m' x ↔ Feasible m x := by
    intro x
    unfold Feasible
    rw [hI, hJ, hobj x, hcap]
    simp only [hforb]
  have hall : allPairs m' = allPairs m := by
    unfold allPairs
    rw [hI, hJ]
  have hcand : feasibleCandidates m' = feasibleCandidates m := by
    unfold feasibleCandidates
    rw [hall]
    exact List.filter_congr fun s _ => decide_eq_decide.mpr (hfeas _)
  have hbest : bestPairs m' = bestPairs m := by
    unfold bestPairs
    rw [hcand, pickBest_congr m' m (fun s => hobj _)]
  have hsolve : solveModel m' = solveModel m := by
    rw [solveModel, solveModel, hbest]
  have hrows : ∀ x, resultRows m' x = resultRows m x := by
    intro x
    unfold resultRows
    rw [hI, hJ]
    simp only [hq, hc]
  show SolveResults.mk (resultRows m' (solveModel m'))
      (resultRows m' (solveModel m')).length
      ((numStudents m' : Int) - (resultRows m' (solveModel m')).length)
    = SolveResults.mk (resultRows m (solveModel m))
      (resultRows m (solveModel m)).length
      ((numStudents m : Int) - (resultRows m (solveModel m)).length)
  rw [hsolve, hrows, hJ]

theorem quals_map (ins : List Instructor) (sts sts' : List Student)
    (cap cap' : Int) (f : Instructor → Int) (i : Nat) :
    quals ⟨ins.map fun a => ⟨f a, a.qualifications⟩, sts', cap'⟩ i
      = quals ⟨ins, sts, cap⟩ i := by
  unfold quals
  show ((ins.map fun a => Instructor.mk (f a) a.qualifications).getD i
      defaultInstructor).qualifications
    = (ins.getD i defaultInstructor).qualifications
  rw [List.getD_eq_getElem?_getD, List.getD_eq_getElem?_getD,
    List.getElem?_map]
  cases h : ins[i]? with
  | none => rfl
  | some a => rfl

theorem courseOf_map (ins' : List Instructor) (ins : List Instructor)
    (sts : List Student) (cap cap' : Int) (g : Student → Int) (j : Nat) :
    courseOf ⟨ins', sts.map fun b => ⟨g b, b.course⟩, cap'⟩ j
      = courseOf ⟨ins, sts, cap⟩ j := by
  unfold courseOf
  show ((sts.map fun b => Student.mk (g b) b.course).getD j
      defaultStudent).course
    = (sts.getD j defaultStudent).course
  rw [List.getD_eq_getElem?_getD, List.getD_eq_getElem?_getD,
    List.getElem?_map]
  cases h : sts[j]? with
  | none => rfl
  | some b => rfl

/-- claim C10: every reported result row carries positional ids: the
"Instructor ID" and "Student ID" are the positional indices plus one,
and the row's course and qualification fields come from those
positions; the `id` fields stored in the input records are never read,
so rewriting every `id` field leaves the results unchanged. -/
theorem claim10_positional_ids :
    (∀ (m : LpModel), ∀ r ∈ (solveAndDisplayResults m).rows,
      ∃ i j, i < numInstructors m ∧ j < numStudents m ∧
        solveModel m i j = 1 ∧
        r = ⟨i + 1, quals m i, j + 1, courseOf m j⟩) ∧
    (∀ (ins : List Instructor) (sts : List Student) (cap : Int)
        (f : Instructor → Int) (g : Student → Int),
      solveAndDisplayResults ⟨ins.map fun a => ⟨f a, a.qualifications⟩,
          sts.map fun b => ⟨g b, b.course⟩, cap⟩
        = solveAndDisplayResults ⟨ins, sts, cap⟩) := by
  constructor
  · intro m r hr
    have hr' : r ∈ resultRows m (solveModel m) := hr
    rw [resultRows] at hr'
    rcases List.mem_flatMap.mp hr' with ⟨i, hi, hji⟩
    rcases List.mem_filterMap.mp hji with ⟨j, hj, heq⟩
    by_cases hx : solveModel m i j = 1
    · rw [if_pos hx] at heq
      exact ⟨i, j, List.mem_range.mp hi, List.mem_range.mp hj, hx,
        (Option.some_injective _ heq).symm⟩
    · rw [if_neg hx] at heq
      exact absurd heq (by simp)
  · intro ins sts cap f g
    refine results_congr _ _ ?_ ?_ ?_ ?_ rfl
    · exact List.length_map ins _
    · exact List.length_map sts _
    · exact fun i => quals_map ins sts _ cap cap f i
    · exact fun j => courseOf_map _ ins sts cap cap g j

theorem claim10_witness :
    ((⟨1, [1], 1, 1⟩ : ResultRow) ∈
        (solveAndDisplayResults ⟨[⟨1, [1]⟩], [⟨1, 1⟩], 1⟩).rows) ∧
    (∃ i j, i < numInstructors ⟨[⟨1, [1]⟩], [⟨1, 1⟩], 1⟩ ∧
      j < numStudents ⟨[⟨1, [1]⟩], [⟨1, 1⟩], 1⟩ ∧
      solveModel ⟨[⟨1, [1]⟩], [⟨1, 1⟩], 1⟩ i j = 1 ∧
      (⟨1, [1], 1, 1⟩ : ResultRow)
        = ⟨i + 1, quals ⟨[⟨1, [1]⟩], [⟨1, 1⟩], 1⟩ i, j + 1,
            courseOf ⟨[⟨1, [1]⟩], [⟨1, 1⟩], 1⟩ j⟩) ∧
    solveAndDisplayResults
        ⟨([⟨7, [1]⟩] : List Instructor).map
            fun a => ⟨(fun _ : Instructor => (99 : Int)) a, a.qualifications⟩,
          ([⟨5, 1⟩] : List Student).map
            fun b => ⟨(fun _ : Student => (42 : Int)) b, b.course⟩, 1⟩
      = solveAndDisplayResults ⟨[⟨7, [1]⟩], [⟨5, 1⟩], 1⟩ :=
  ⟨by decide,
    claim10_positional_ids.1 ⟨[⟨1, [1]⟩], [⟨1, 1⟩], 1⟩ ⟨1, [1], 1, 1⟩
      (by decide),
    claim10_positional_ids.2 [⟨7, [1]⟩] [⟨5, 1⟩] 1
      (fun _ => 99) (fun _ => 42)⟩
